import Mathlib

/-!
# Verification of the attendance-bot notification core

Shallow embedding of the subscriber-set fan-out and keyword-trigger
pipeline of the attendance bot (webhook variant `api/telegram.js`, the
cron reminder job `api/class-reminders.js`, and the polling variant
`index.js`), together with proofs of the behavioural properties claimed
for it.

Conventions:
* user identifiers are `Nat`;
* a Redis set of user ids is a `List Nat` whose membership is what
  matters (`kvSadd` refuses duplicates, `kvSrem` removes all copies);
* fallible KV calls are `Except Unit` values driven by an explicit
  failure flag, and the adapter layer catches the error exactly where
  the source has a `try/catch`;
* the sequential fan-out loop is a recursion producing a trace of
  observable events (send attempts, rate-limit pauses, removals) plus
  the final store state; the messaging gateway is an oracle
  `send : Nat → SendOutcome` indexed by attempt position.
-/

set_option maxRecDepth 16384

namespace AttendanceBot

/-- Outcome reported by the messaging gateway for one send attempt:
success, or a structured error carrying the platform error code
(`e.response.error_code`). -/
inductive SendOutcome where
  | ok : SendOutcome
  | err (code : Int) : SendOutcome
deriving DecidableEq, Repr

/-- The two named subscription lists kept in the KV store:
`subs:attendance` and `subs:class` (source constants
`SUBS_ATTENDANCE_KEY` / `SUBS_CLASS_KEY`). -/
structure KvState where
  att : List Nat
  cls : List Nat
deriving DecidableEq, Repr

/-- `kv.sadd key String(userId)`: idempotent set insert; the failure
flag models a raised network/store error. -/
def kvSadd (fails : Bool) (st : List Nat) (uid : Nat) : Except Unit (List Nat) :=
  if fails then .error () else .ok (if uid ∈ st then st else st ++ [uid])

/-- `kv.srem key String(userId)`: idempotent set delete; the failure
flag models a raised network/store error. -/
def kvSrem (fails : Bool) (st : List Nat) (uid : Nat) : Except Unit (List Nat) :=
  if fails then .error () else .ok (st.filter (fun x => x ≠ uid))

/-- `setSub(key, userId, enabled)` from `api/telegram.js`: add or remove
the user on one list, catching any store error and leaving the list
unchanged (the catch only logs). -/
def setSub (fails : Bool) (enabled : Bool) (uid : Nat) (st : List Nat) : List Nat :=
  match (if enabled then kvSadd fails st uid else kvSrem fails st uid) with
  | .error _ => st
  | .ok st2 => st2

/-- `isSub(key, userId)`: `SISMEMBER === 1`, catching a store error and
returning `false`. -/
def isSub (fails : Bool) (uid : Nat) (st : List Nat) : Bool :=
  match (if fails then (.error () : Except Unit Bool) else .ok (decide (uid ∈ st))) with
  | .error _ => false
  | .ok b => b

/-- `listSubs(key)`: `SMEMBERS`, catching a store error and returning the
empty list. -/
def listSubs (fails : Bool) (st : List Nat) : List Nat :=
  match (if fails then (.error () : Except Unit (List Nat)) else .ok st) with
  | .error _ => []
  | .ok l => l

/-- `removeFromAllLists(userId)`: remove the user from both known lists
via `setSub`; each half absorbs its own store failure, so one list's
failure never prevents the attempt on the other list. `failAtt` /
`failCls` drive the two underlying KV calls. -/
def removeFromAllLists (failAtt failCls : Bool) (uid : Nat) (st : KvState) : KvState :=
  { att := setSub failAtt false uid st.att
    cls := setSub failCls false uid st.cls }

/-- Observable events of one fan-out run: a send attempt to a user, the
inter-send rate-limit pause (`setTimeout(r, ms)`), and an invocation of
`removeFromAllLists`. -/
inductive FanEvent where
  | attempt (uid : Nat) : FanEvent
  | pause (ms : Nat) : FanEvent
  | removeAll (uid : Nat) : FanEvent
deriving DecidableEq, Repr

/-- `notifyAllUsers(bot, userIds, previewText, linkUrl)` from
`api/telegram.js`, lines 136–158: iterate the id list; on a successful
send sleep 50 ms; on a thrown send error log it and, when the error code
is 403, call `removeFromAllLists`.  `send i` is the gateway's outcome
for the i-th attempt of the run; `kvFail i` gives the failure flags of
the two KV deletes performed by the i-th attempt's removal (if any).
Returns the event trace and the final store state. -/
def notifyAllUsers (send : Nat → SendOutcome) (kvFail : Nat → Bool × Bool)
    (idx : Nat) (userIds : List Nat) (st : KvState) : List FanEvent × KvState :=
  match userIds with
  | [] => ([], st)
  | uid :: rest =>
    match send idx with
    | .ok =>
      let r := notifyAllUsers send kvFail (idx + 1) rest st
      (.attempt uid :: .pause 50 :: r.1, r.2)
    | .err code =>
      if code = 403 then
        let st1 := removeFromAllLists (kvFail idx).1 (kvFail idx).2 uid st
        let r := notifyAllUsers send kvFail (idx + 1) rest st1
        (.attempt uid :: .removeAll uid :: r.1, r.2)
      else
        let r := notifyAllUsers send kvFail (idx + 1) rest st
        (.attempt uid :: r.1, r.2)

/-- Counters of the reminder send loop (`api/class-reminders.js`). -/
structure ReminderCounts where
  sent : Nat
  removed : Nat
  failed : Nat
deriving DecidableEq, Repr

/-- The `for (const uid of userIds)` send loop of the cron handler in
`api/class-reminders.js`, lines 98–113: same skeleton as
`notifyAllUsers` but it also tallies `sent` / `removed` / `failed`. -/
def reminderSendLoop (send : Nat → SendOutcome) (kvFail : Nat → Bool × Bool)
    (idx : Nat) (userIds : List Nat) (st : KvState) :
    List FanEvent × ReminderCounts × KvState :=
  match userIds with
  | [] => ([], ⟨0, 0, 0⟩, st)
  | uid :: rest =>
    match send idx with
    | .ok =>
      let r := reminderSendLoop send kvFail (idx + 1) rest st
      (.attempt uid :: .pause 50 :: r.1,
        ⟨r.2.1.sent + 1, r.2.1.removed, r.2.1.failed⟩, r.2.2)
    | .err code =>
      if code = 403 then
        let st1 := removeFromAllLists (kvFail idx).1 (kvFail idx).2 uid st
        let r := reminderSendLoop send kvFail (idx + 1) rest st1
        (.attempt uid :: .removeAll uid :: r.1,
          ⟨r.2.1.sent, r.2.1.removed + 1, r.2.1.failed + 1⟩, r.2.2)
      else
        let r := reminderSendLoop send kvFail (idx + 1) rest st
        (.attempt uid :: r.1,
          ⟨r.2.1.sent, r.2.1.removed, r.2.1.failed + 1⟩, r.2.2)

/-- The user ids attempted during a run, in order. -/
def attemptsOf (evs : List FanEvent) : List Nat :=
  evs.filterMap (fun e => match e with | .attempt uid => some uid | _ => none)

/-- Number of rate-limit pauses in a trace. -/
def countPauses (evs : List FanEvent) : Nat :=
  evs.countP (fun e => match e with | .pause _ => true | _ => false)

/-- Number of successful gateway outcomes among the `n` attempts that
start at position `idx` of the oracle. -/
def countOkSends (send : Nat → SendOutcome) (idx : Nat) : Nat → Nat
  | 0 => 0
  | n + 1 => (if send idx = .ok then 1 else 0) + countOkSends send (idx + 1) n

/-- Scans a trace and checks that every send attempt after the first is
separated from the previous attempt by at least one pause event (the
flag records whether a pause has been seen since the last attempt; it
starts `true` because the first attempt needs no preceding pause). -/
def pauseSeparatedFrom (pauseSeen : Bool) : List FanEvent → Bool
  | [] => true
  | .attempt _ :: rest => pauseSeen && pauseSeparatedFrom false rest
  | .pause _ :: rest => pauseSeparatedFrom true rest
  | .removeAll _ :: rest => pauseSeparatedFrom pauseSeen rest

/-- Every transition from one recipient's send attempt to the next goes
through a pause event. -/
def pauseSeparated (evs : List FanEvent) : Bool :=
  pauseSeparatedFrom true evs

/-- Gateway oracle whose first attempt fails with a transient error
(error code 500) and whose later attempts succeed. -/
def sendFirstFails : Nat → SendOutcome :=
  fun i => if i = 0 then .err 500 else .ok

/-- KV failure oracle under which every store call succeeds. -/
def kvOk : Nat → Bool × Bool := fun _ => (false, false)

/-! ## Notification formatter (excerpt step) -/

/-- JavaScript `\s` whitespace class restricted to its ASCII members. -/
def isJsWs (c : Char) : Bool :=
  c = ' ' || c = '\t' || c = '\n' || c = '\r' || c = '\x0b' || c = '\x0c'

/-- Worker for `text.replace(/\s+/g, ' ')`: each maximal run of
whitespace becomes one space.  The flag records whether the previous
character belonged to a whitespace run already emitted as a space. -/
def collapseWsAux (prevWs : Bool) : List Char → List Char
  | [] => []
  | c :: rest =>
    if isJsWs c then
      if prevWs then collapseWsAux true rest
      else ' ' :: collapseWsAux true rest
    else c :: collapseWsAux false rest

/-- `text.replace(/\s+/g, ' ')`. -/
def collapseWs (l : List Char) : List Char :=
  collapseWsAux false l

/-- Excerpt step of the webhook formatter, `api/telegram.js` line 221:
`text.replace(/\s+/g,' ').slice(0,160)` — hard cut at 160, no ellipsis. -/
def excerptWebhook (text : List Char) : List Char :=
  (collapseWs text).take 160

/-- Excerpt step of the polling formatter, `index.js` lines 115–116:
collapse whitespace, then if longer than 160 keep the first 157
characters and append the one-character ellipsis. -/
def excerptPolling (text : List Char) : List Char :=
  let normalized := collapseWs text
  if normalized.length > 160 then normalized.take 157 ++ ['…'] else normalized

/-! ## Scheduled reminder trigger (`api/class-reminders.js`) -/

/-- Reminder time-of-day in GMT+5 (`CLASS_REMINDER_HOUR_GMT5` and
`CLASS_REMINDER_MINUTE_GMT5`). -/
def CLASS_REMINDER_HOUR_GMT5 : Nat := 18

/-- Minute component of the reminder time-of-day. -/
def CLASS_REMINDER_MINUTE_GMT5 : Nat := 25

/-- `CLASS_SCHEDULE_BY_GMT5_DAY`: static weekday → class-name table
(1=Mon .. 4=Thu); days without an entry have no class. -/
def CLASS_SCHEDULE_BY_GMT5_DAY : Nat → Option String
  | 1 => some "Database Design Concepts"
  | 2 => some "Computer Systems"
  | 3 => some "Business Skills for E- Commerce"
  | 4 => some "Website Design"
  | _ => none

/-- `nowInGmt5()`: epoch milliseconds shifted by +5 hours
(`Date.now() + 5*60*60*1000`). -/
def nowInGmt5 (t : Nat) : Nat := t + 5 * 60 * 60 * 1000

/-- `getUTCDay()` of the shifted date: day 0 of the epoch was a
Thursday (weekday index 4), so add 4 before reducing mod 7. -/
def gmt5Day (t : Nat) : Nat := (nowInGmt5 t / 86400000 + 4) % 7

/-- `getUTCHours()` of the shifted date. -/
def gmt5Hour (t : Nat) : Nat := nowInGmt5 t / 3600000 % 24

/-- `getUTCMinutes()` of the shifted date. -/
def gmt5Minute (t : Nat) : Nat := nowInGmt5 t / 60000 % 60

/-- `Math.abs(nowMinutes - scheduledMinutes)` at instant `t`. -/
def minuteDiff (t : Nat) : Nat :=
  ((gmt5Hour t * 60 + gmt5Minute t : Int) -
    (CLASS_REMINDER_HOUR_GMT5 * 60 + CLASS_REMINDER_MINUTE_GMT5 : Int)).natAbs

/-- Outcome classification of one invocation of the cron handler. -/
inductive ReminderOutcome where
  | skippedNoClass : ReminderOutcome
  | skippedWrongTime : ReminderOutcome
  | executed (className : String) : ReminderOutcome
deriving DecidableEq, Repr

/-- The decision logic of the cron `handler` in `api/class-reminders.js`
lines 63–88, at epoch instant `t` with override flag `force`
(`?force=1`): unless forced, skip when the GMT+5 weekday has no table
entry, then skip when the time-of-day is more than one minute from the
target; afterwards skip again when there is no entry (reachable only
when forced), else proceed to the send loop with the table's class. -/
def classReminderOutcome (force : Bool) (t : Nat) : ReminderOutcome :=
  let className := CLASS_SCHEDULE_BY_GMT5_DAY (gmt5Day t)
  if !force then
    match className with
    | none => .skippedNoClass
    | some c =>
      if minuteDiff t > 1 then .skippedWrongTime
      else .executed c
  else
    match className with
    | none => .skippedNoClass
    | some c => .executed c

/-! ## Link resolver (`buildLink` in `api/telegram.js`) -/

/-- Chat metadata consumed by the link resolver; either field may be
absent from the inbound payload. -/
structure Chat where
  username : Option String
  id : Option Int
deriving DecidableEq, Repr

/-- JavaScript truthiness of `chat?.username`: an absent chat, an absent
field and the empty string are all falsy. -/
def jsTruthyStr : Option String → Bool
  | none => false
  | some s => s ≠ ""

/-- `String(chat?.id || '')`: an absent chat, an absent id and the falsy
id `0` all give the empty string; otherwise decimal rendering (with a
leading minus sign for negative ids). -/
def stringOfChatId (chat : Option Chat) : String :=
  match chat.bind Chat.id with
  | none => ""
  | some i => if i = 0 then "" else toString i

/-- Character-level prefix test (the semantics of JavaScript
`String.prototype.startsWith` on the code-unit sequence). -/
def startsWithChars : List Char → List Char → Bool
  | _, [] => true
  | [], _ :: _ => false
  | c :: s, p :: ps => c = p && startsWithChars s ps

/-- `s.startsWith(pre)` on the character sequences of the strings. -/
def strStartsWith (s pre : String) : Bool :=
  startsWithChars s.data pre.data

/-- `s.slice(n)`: drop the first `n` characters. -/
def strDrop (s : String) (n : Nat) : String :=
  String.mk (s.data.drop n)

/-- `buildLink(chat, messageId)` from `api/telegram.js` lines 24–29:
public-handle permalink, else private-supergroup permalink when the id
string starts with `-100`, else `null`. -/
def buildLink (chat : Option Chat) (messageId : Nat) : Option String :=
  if jsTruthyStr (chat.bind Chat.username) then
    some ("https://t.me/" ++ (chat.bind Chat.username).getD "" ++ "/" ++ toString messageId)
  else
    let idStr := stringOfChatId chat
    if strStartsWith idStr "-100" then
      some ("https://t.me/c/" ++ strDrop idStr 4 ++ "/" ++ toString messageId)
    else
      none

/-! ## Keyword detector (`KEYWORD` and `extractText` in `api/telegram.js`) -/

/-- JavaScript `\w` word-character class: ASCII letters, digits and the
underscore; `\W` is its complement. -/
def isWordChar (c : Char) : Bool :=
  c.isAlphanum || c = '_'

/-- The trigger word, lowercased. -/
def kwChars : List Char :=
  ['a', 't', 't', 'e', 'n', 'd', 'a', 'n', 'c', 'e']

/-- The `attendance(\W|$)` part of the pattern matched at the current
position: the next ten characters, lowercased (`/i`), spell the trigger
word, and the character after them (if any) is a non-word character. -/
def kwAt (l : List Char) : Bool :=
  ((l.take 10).map Char.toLower = kwChars : Bool) &&
    (match l.drop 10 with
     | [] => true
     | c :: _ => !isWordChar c)

/-- The `\W` alternative of `(^|\W)` tried at every position of the
string: some character is a non-word character followed by a trigger
occurrence. -/
def kwScan : List Char → Bool
  | [] => false
  | c :: rest => (!isWordChar c && kwAt rest) || kwScan rest

/-- `KEYWORD.test(text)` for `/(^|\W)attendance(\W|$)/i`: either the
`^` alternative fires at the start of the string or the `\W`
alternative fires somewhere. -/
def kwTest (l : List Char) : Bool :=
  kwAt l || kwScan l

/-- The claim's reading of the pattern: the text contains the trigger
word (case-insensitively) bounded on the left by a non-word character
or the start of the string and on the right by a non-word character or
the end of the string. -/
def containsBoundedKeyword (l : List Char) : Prop :=
  ∃ pre occ post, l = pre ++ occ ++ post ∧
    occ.map Char.toLower = kwChars ∧
    (pre = [] ∨ ∃ p c, pre = p ++ [c] ∧ isWordChar c = false) ∧
    (post = [] ∨ ∃ c p, post = c :: p ∧ isWordChar c = false)

/-- Inbound message payload fields consumed by `extractText`. -/
structure Msg where
  text : Option (List Char)
  caption : Option (List Char)
deriving DecidableEq, Repr

/-- JavaScript `a || b` on strings: keep `a` unless it is falsy
(absent or empty). -/
def jsOrStr (a : Option (List Char)) (b : List Char) : List Char :=
  match a with
  | none => b
  | some s => if s = [] then b else s

/-- JavaScript `String.prototype.trim`: strip whitespace from both
ends. -/
def trimJs (l : List Char) : List Char :=
  ((l.dropWhile isJsWs).reverse.dropWhile isJsWs).reverse

/-- `extractText(msg)`: `(msg?.text || msg?.caption || '').trim()`. -/
def extractText (m : Option Msg) : List Char :=
  trimJs (jsOrStr (m.bind Msg.text) (jsOrStr (m.bind Msg.caption) []))

/-! ## Subscription command handler mutations -/

/-- The subscription-state mutations reachable through the command
handler (`initBot` in `api/telegram.js`) and through 403-triggered
removal. -/
inductive SubAction where
  | presetAttendance : SubAction
  | presetBoth : SubAction
  | presetNone : SubAction
  | stopCmd : SubAction
  | blocked403 : SubAction
deriving DecidableEq, Repr

/-- Effect of one action for user `uid` on the store; `fa` / `fc` are
the failure flags of the attendance-list and class-list KV calls the
action performs. `preset:attendance` enables the attendance list and
disables the class list; `preset:both` enables both; `preset:none`,
`/stop` and a 403 during fan-out all call `removeFromAllLists`. -/
def applyAction (fa fc : Bool) (a : SubAction) (uid : Nat) (st : KvState) : KvState :=
  match a with
  | .presetAttendance =>
    { att := setSub fa true uid st.att, cls := setSub fc false uid st.cls }
  | .presetBoth =>
    { att := setSub fa true uid st.att, cls := setSub fc true uid st.cls }
  | .presetNone => removeFromAllLists fa fc uid st
  | .stopCmd => removeFromAllLists fa fc uid st
  | .blocked403 => removeFromAllLists fa fc uid st

/-- Fold a sequence of handler actions over the store; `kvFail i` gives
the failure flags of the i-th action's two KV calls. -/
def applyActions (kvFail : Nat → Bool × Bool) (idx : Nat) :
    List (SubAction × Nat) → KvState → KvState
  | [], st => st
  | (a, uid) :: rest, st =>
    applyActions kvFail (idx + 1) rest
      (applyAction (kvFail idx).1 (kvFail idx).2 a uid st)

/-- The invariant of claim C10: membership in the class-reminders list
implies membership in the attendance list. -/
def ClassImpliesAtt (st : KvState) : Prop :=
  ∀ u, u ∈ st.cls → u ∈ st.att

/-! ## Theorems -/

theorem attemptsOf_nil : attemptsOf [] = [] := rfl

theorem attemptsOf_attempt (u : Nat) (evs : List FanEvent) :
    attemptsOf (.attempt u :: evs) = u :: attemptsOf evs := rfl

theorem attemptsOf_pause (ms : Nat) (evs : List FanEvent) :
    attemptsOf (.pause ms :: evs) = attemptsOf evs := rfl

theorem attemptsOf_removeAll (u : Nat) (evs : List FanEvent) :
    attemptsOf (.removeAll u :: evs) = attemptsOf evs := rfl

theorem notifyAllUsers_attempts (send : Nat → SendOutcome) (kvFail : Nat → Bool × Bool) :
    ∀ (uids : List Nat) (idx : Nat) (st : KvState),
      attemptsOf (notifyAllUsers send kvFail idx uids st).1 = uids := by
  intro uids
  induction uids with
  | nil => intro idx st; rfl
  | cons uid rest ih =>
    intro idx st
    simp only [notifyAllUsers]
    cases send idx with
    | ok =>
      simp only [attemptsOf_attempt, attemptsOf_pause, ih]
    | err code =>
      by_cases h : code = 403 <;>
        simp only [h, if_true, if_false, if_pos, if_neg, not_false_iff,
          attemptsOf_attempt, attemptsOf_removeAll, ih]

theorem reminderSendLoop_attempts (send : Nat → SendOutcome) (kvFail : Nat → Bool × Bool) :
    ∀ (uids : List Nat) (idx : Nat) (st : KvState),
      attemptsOf (reminderSendLoop send kvFail idx uids st).1 = uids := by
  intro uids
  induction uids with
  | nil => intro idx st; rfl
  | cons uid rest ih =>
    intro idx st
    simp only [reminderSendLoop]
    cases send idx with
    | ok =>
      simp only [attemptsOf_attempt, attemptsOf_pause, ih]
    | err code =>
      by_cases h : code = 403 <;>
        simp only [h, if_true, if_false, if_pos, if_neg, not_false_iff,
          attemptsOf_attempt, attemptsOf_removeAll, ih]

/-- C1: for every subscriber list given to `notifyAllUsers` or to the
reminder send loop, and every behaviour of the messaging gateway and of
the store, the run issues exactly one send attempt per list element —
the attempted ids are the list itself, so there are N attempts for a
list of length N — and in particular iteration reaches the end of the
list no matter which attempts fail. -/
theorem fanout_attempts_exactly_once (send : Nat → SendOutcome)
    (kvFail : Nat → Bool × Bool) (uids : List Nat) (idx : Nat) (st : KvState) :
    attemptsOf (notifyAllUsers send kvFail idx uids st).1 = uids ∧
    (attemptsOf (notifyAllUsers send kvFail idx uids st).1).length = uids.length ∧
    attemptsOf (reminderSendLoop send kvFail idx uids st).1 = uids ∧
    (attemptsOf (reminderSendLoop send kvFail idx uids st).1).length = uids.length := by
  refine ⟨notifyAllUsers_attempts send kvFail uids idx st, ?_,
    reminderSendLoop_attempts send kvFail uids idx st, ?_⟩ <;>
    simp [notifyAllUsers_attempts, reminderSendLoop_attempts]

theorem setSub_remove_ok (uid : Nat) (st : List Nat) :
    setSub false false uid st = st.filter (fun x => x ≠ uid) := rfl

theorem setSub_add_ok (uid : Nat) (st : List Nat) :
    setSub false true uid st = if uid ∈ st then st else st ++ [uid] := rfl

theorem removeFromAllLists_ok (uid : Nat) (st : KvState) :
    removeFromAllLists false false uid st =
      ⟨st.att.filter (fun x => x ≠ uid), st.cls.filter (fun x => x ≠ uid)⟩ := rfl

theorem notifyAllUsers_cons_ok (send : Nat → SendOutcome) (kvFail : Nat → Bool × Bool)
    (idx : Nat) (uid : Nat) (rest : List Nat) (st : KvState) (hs : send idx = .ok) :
    notifyAllUsers send kvFail idx (uid :: rest) st =
      (.attempt uid :: .pause 50 :: (notifyAllUsers send kvFail (idx + 1) rest st).1,
        (notifyAllUsers send kvFail (idx + 1) rest st).2) := by
  simp [notifyAllUsers, hs]

theorem notifyAllUsers_cons_err403 (send : Nat → SendOutcome) (kvFail : Nat → Bool × Bool)
    (idx : Nat) (uid : Nat) (rest : List Nat) (st : KvState) (hs : send idx = .err 403) :
    notifyAllUsers send kvFail idx (uid :: rest) st =
      (.attempt uid :: .removeAll uid ::
          (notifyAllUsers send kvFail (idx + 1) rest
            (removeFromAllLists (kvFail idx).1 (kvFail idx).2 uid st)).1,
        (notifyAllUsers send kvFail (idx + 1) rest
          (removeFromAllLists (kvFail idx).1 (kvFail idx).2 uid st)).2) := by
  simp [notifyAllUsers, hs]

theorem notifyAllUsers_cons_errOther (send : Nat → SendOutcome) (kvFail : Nat → Bool × Bool)
    (idx : Nat) (uid : Nat) (rest : List Nat) (st : KvState) (code : Int)
    (hs : send idx = .err code) (hc : code ≠ 403) :
    notifyAllUsers send kvFail idx (uid :: rest) st =
      (.attempt uid :: (notifyAllUsers send kvFail (idx + 1) rest st).1,
        (notifyAllUsers send kvFail (idx + 1) rest st).2) := by
  simp [notifyAllUsers, hs, hc]

theorem notifyAllUsers_att_subset (send : Nat → SendOutcome) :
    ∀ (uids : List Nat) (idx : Nat) (st : KvState) (u : Nat),
      u ∈ (notifyAllUsers send kvOk idx uids st).2.att → u ∈ st.att := by
  intro uids
  induction uids with
  | nil => intro idx st u h; exact h
  | cons uid rest ih =>
    intro idx st u h
    simp only [notifyAllUsers] at h
    cases hs : send idx with
    | ok => simp only [hs] at h; exact ih (idx + 1) st u h
    | err code =>
      simp only [hs] at h
      by_cases h403 : code = 403
      · rw [if_pos h403] at h
        have h1 := ih (idx + 1) _ u h
        simp only [kvOk, removeFromAllLists_ok, List.mem_filter] at h1
        exact h1.1
      · rw [if_neg h403] at h
        exact ih (idx + 1) st u h

theorem notifyAllUsers_cls_subset (send : Nat → SendOutcome) :
    ∀ (uids : List Nat) (idx : Nat) (st : KvState) (u : Nat),
      u ∈ (notifyAllUsers send kvOk idx uids st).2.cls → u ∈ st.cls := by
  intro uids
  induction uids with
  | nil => intro idx st u h; exact h
  | cons uid rest ih =>
    intro idx st u h
    simp only [notifyAllUsers] at h
    cases hs : send idx with
    | ok => simp only [hs] at h; exact ih (idx + 1) st u h
    | err code =>
      simp only [hs] at h
      by_cases h403 : code = 403
      · rw [if_pos h403] at h
        have h1 := ih (idx + 1) _ u h
        simp only [kvOk, removeFromAllLists_ok, List.mem_filter] at h1
        exact h1.1
      · rw [if_neg h403] at h
        exact ih (idx + 1) st u h

theorem notifyAllUsers_removed_absent (send : Nat → SendOutcome) :
    ∀ (uids : List Nat) (idx : Nat) (st : KvState) (u : Nat),
      FanEvent.removeAll u ∈ (notifyAllUsers send kvOk idx uids st).1 →
        u ∉ (notifyAllUsers send kvOk idx uids st).2.att ∧
        u ∉ (notifyAllUsers send kvOk idx uids st).2.cls := by
  intro uids
  induction uids with
  | nil => intro idx st u h; simp [notifyAllUsers] at h
  | cons uid rest ih =>
    intro idx st u h
    simp only [notifyAllUsers] at h ⊢
    cases hs : send idx with
    | ok =>
      simp only [hs] at h ⊢
      simp only [List.mem_cons] at h
      rcases h with h | h | h
      · exact absurd h (by simp)
      · exact absurd h (by simp)
      · exact ih (idx + 1) st u h
    | err code =>
      simp only [hs] at h ⊢
      by_cases h403 : code = 403
      · rw [if_pos h403] at h ⊢
        simp only [List.mem_cons] at h
        rcases h with h | h | h
        · exact absurd h (by simp)
        · have hu : u = uid := by simpa using h
          subst hu
          constructor
          · intro hmem
            have h1 := notifyAllUsers_att_subset send rest (idx + 1) _ u hmem
            simp [kvOk, removeFromAllLists_ok, List.mem_filter] at h1
          · intro hmem
            have h1 := notifyAllUsers_cls_subset send rest (idx + 1) _ u hmem
            simp [kvOk, removeFromAllLists_ok, List.mem_filter] at h1
        · exact ih (idx + 1) _ u h
      · rw [if_neg h403] at h ⊢
        simp only [List.mem_cons] at h
        rcases h with h | h
        · exact absurd h (by simp)
        · exact ih (idx + 1) st u h

theorem notifyAllUsers_not_removed_unchanged (send : Nat → SendOutcome) :
    ∀ (uids : List Nat) (idx : Nat) (st : KvState) (u : Nat),
      FanEvent.removeAll u ∉ (notifyAllUsers send kvOk idx uids st).1 →
        (u ∈ (notifyAllUsers send kvOk idx uids st).2.att ↔ u ∈ st.att) ∧
        (u ∈ (notifyAllUsers send kvOk idx uids st).2.cls ↔ u ∈ st.cls) := by
  intro uids
  induction uids with
  | nil => intro idx st u _; exact ⟨Iff.rfl, Iff.rfl⟩
  | cons uid rest ih =>
    intro idx st u h
    cases hs : send idx with
    | ok =>
      rw [notifyAllUsers_cons_ok send kvOk idx uid rest st hs] at h ⊢
      simp only [List.mem_cons, not_or] at h
      exact ih (idx + 1) st u h.2.2
    | err code =>
      by_cases h403 : code = 403
      · subst h403
        rw [notifyAllUsers_cons_err403 send kvOk idx uid rest st hs] at h ⊢
        simp only [List.mem_cons, not_or] at h
        have hu : u ≠ uid := fun he => h.2.1 (by rw [he])
        have hih := ih (idx + 1)
          (removeFromAllLists (kvOk idx).1 (kvOk idx).2 uid st) u h.2.2
        refine ⟨hih.1.trans ?_, hih.2.trans ?_⟩
        · simp [kvOk, removeFromAllLists_ok, List.mem_filter, hu]
        · simp [kvOk, removeFromAllLists_ok, List.mem_filter, hu]
      · rw [notifyAllUsers_cons_errOther send kvOk idx uid rest st code hs h403] at h ⊢
        simp only [List.mem_cons, not_or] at h
        exact ih (idx + 1) st u h.2

theorem notifyAllUsers_removeAll_iff (send : Nat → SendOutcome) :
    ∀ (uids : List Nat) (idx : Nat) (st : KvState) (u : Nat),
      FanEvent.removeAll u ∈ (notifyAllUsers send kvOk idx uids st).1 ↔
        ∃ i, uids.get? i = some u ∧ send (idx + i) = .err 403 := by
  intro uids
  induction uids with
  | nil => intro idx st u; simp [notifyAllUsers]
  | cons uid rest ih =>
    intro idx st u
    cases hs : send idx with
    | ok =>
      rw [notifyAllUsers_cons_ok send kvOk idx uid rest st hs]
      simp only [List.mem_cons]
      constructor
      · rintro (h | h | h)
        · exact absurd h (by simp)
        · exact absurd h (by simp)
        · obtain ⟨i, hg, h4⟩ := (ih (idx + 1) st u).mp h
          exact ⟨i + 1, by simpa using hg,
            by rw [show idx + (i + 1) = idx + 1 + i by omega]; exact h4⟩
      · rintro ⟨i, hg, h4⟩
        cases i with
        | zero =>
          rw [Nat.add_zero] at h4
          rw [hs] at h4
          exact absurd h4 (by simp)
        | succ j =>
          refine Or.inr (Or.inr ((ih (idx + 1) st u).mpr ⟨j, by simpa using hg, ?_⟩))
          rw [show idx + 1 + j = idx + (j + 1) by omega]
          exact h4
    | err code =>
      by_cases h403 : code = 403
      · subst h403
        rw [notifyAllUsers_cons_err403 send kvOk idx uid rest st hs]
        simp only [List.mem_cons]
        constructor
        · rintro (h | h | h)
          · exact absurd h (by simp)
          · have hu : u = uid := by simpa using h
            exact ⟨0, by simp [hu], by simpa using hs⟩
          · obtain ⟨i, hg, h4⟩ := (ih (idx + 1) _ u).mp h
            exact ⟨i + 1, by simpa using hg,
              by rw [show idx + (i + 1) = idx + 1 + i by omega]; exact h4⟩
        · rintro ⟨i, hg, h4⟩
          cases i with
          | zero =>
            have hu : uid = u := by simpa using hg
            exact Or.inr (Or.inl (by rw [hu]))
          | succ j =>
            refine Or.inr (Or.inr ((ih (idx + 1) _ u).mpr ⟨j, by simpa using hg, ?_⟩))
            rw [show idx + 1 + j = idx + (j + 1) by omega]
            exact h4
      · rw [notifyAllUsers_cons_errOther send kvOk idx uid rest st code hs h403]
        simp only [List.mem_cons]
        constructor
        · rintro (h | h)
          · exact absurd h (by simp)
          · obtain ⟨i, hg, h4⟩ := (ih (idx + 1) st u).mp h
            exact ⟨i + 1, by simpa using hg,
              by rw [show idx + (i + 1) = idx + 1 + i by omega]; exact h4⟩
        · rintro ⟨i, hg, h4⟩
          cases i with
          | zero =>
            rw [Nat.add_zero] at h4
            rw [hs] at h4
            have hcc : code = 403 := by injection h4
            exact absurd hcc h403
          | succ j =>
            refine Or.inr ((ih (idx + 1) st u).mpr ⟨j, by simpa using hg, ?_⟩)
            rw [show idx + 1 + j = idx + (j + 1) by omega]
            exact h4

/-- C2: in a fan-out run whose store calls all succeed (`kvOk`), every
recipient whose send attempt fails with gateway error code 403 has
`removeFromAllLists` invoked for it (a `removeAll` event appears in the
trace), and after the run it belongs to neither subscription list and
is absent from the recipient set `listSubs` of any subsequent fan-out;
conversely a removal happens only for recipients with a 403, and a
recipient with no removal keeps exactly the membership it started
with — failures with other codes remove nobody. -/
theorem fanout_403_removes_everywhere (send : Nat → SendOutcome)
    (idx : Nat) (uids : List Nat) (st : KvState) :
    (∀ i u, uids.get? i = some u → send (idx + i) = .err 403 →
      FanEvent.removeAll u ∈ (notifyAllUsers send kvOk idx uids st).1) ∧
    (∀ u, FanEvent.removeAll u ∈ (notifyAllUsers send kvOk idx uids st).1 →
      u ∉ (notifyAllUsers send kvOk idx uids st).2.att ∧
      u ∉ (notifyAllUsers send kvOk idx uids st).2.cls ∧
      u ∉ listSubs false (notifyAllUsers send kvOk idx uids st).2.att ∧
      u ∉ listSubs false (notifyAllUsers send kvOk idx uids st).2.cls) ∧
    (∀ u, FanEvent.removeAll u ∈ (notifyAllUsers send kvOk idx uids st).1 →
      ∃ i, uids.get? i = some u ∧ send (idx + i) = .err 403) ∧
    (∀ u, FanEvent.removeAll u ∉ (notifyAllUsers send kvOk idx uids st).1 →
      (u ∈ (notifyAllUsers send kvOk idx uids st).2.att ↔ u ∈ st.att) ∧
      (u ∈ (notifyAllUsers send kvOk idx uids st).2.cls ↔ u ∈ st.cls)) := by
  refine ⟨?_, ?_, ?_, ?_⟩
  · intro i u hg h4
    exact (notifyAllUsers_removeAll_iff send uids idx st u).mpr ⟨i, hg, h4⟩
  · intro u h
    have habs := notifyAllUsers_removed_absent send uids idx st u h
    exact ⟨habs.1, habs.2, by simpa [listSubs] using habs.1, by simpa [listSubs] using habs.2⟩
  · intro u h
    exact (notifyAllUsers_removeAll_iff send uids idx st u).mp h
  · intro u h
    exact notifyAllUsers_not_removed_unchanged send uids idx st u h

/-- Witness for C2 at a concrete run: recipients `[7, 8]` with the
first send failing with 403 and the second succeeding, starting from
`att = [7, 8]`, `cls = [7]`: user 7 is removed from every list and user
8 keeps its membership. -/
theorem fanout_403_removes_everywhere_witness :
    FanEvent.removeAll 7 ∈
      (notifyAllUsers (fun i => if i = 0 then .err 403 else .ok) kvOk 0 [7, 8] ⟨[7, 8], [7]⟩).1 ∧
    7 ∉ (notifyAllUsers (fun i => if i = 0 then .err 403 else .ok) kvOk 0 [7, 8] ⟨[7, 8], [7]⟩).2.att ∧
    7 ∉ (notifyAllUsers (fun i => if i = 0 then .err 403 else .ok) kvOk 0 [7, 8] ⟨[7, 8], [7]⟩).2.cls ∧
    (8 ∈ (notifyAllUsers (fun i => if i = 0 then .err 403 else .ok) kvOk 0 [7, 8] ⟨[7, 8], [7]⟩).2.att ↔
      8 ∈ ([7, 8] : List Nat)) := by
  have h0 := fanout_403_removes_everywhere (fun i => if i = 0 then .err 403 else .ok) 0 [7, 8] ⟨[7, 8], [7]⟩
  have hmem := h0.1 0 7 (by decide) (by decide)
  have habs := h0.2.1 7 hmem
  have hkeep := (h0.2.2.2 8 (by decide)).1
  exact ⟨hmem, habs.1, habs.2.1, hkeep⟩

theorem countPauses_attempt (u : Nat) (evs : List FanEvent) :
    countPauses (.attempt u :: evs) = countPauses evs := by
  simp [countPauses, List.countP_cons]

theorem countPauses_pause (ms : Nat) (evs : List FanEvent) :
    countPauses (.pause ms :: evs) = countPauses evs + 1 := by
  simp [countPauses, List.countP_cons]

theorem countPauses_removeAll (u : Nat) (evs : List FanEvent) :
    countPauses (.removeAll u :: evs) = countPauses evs := by
  simp [countPauses, List.countP_cons]

theorem notifyAllUsers_countPauses (send : Nat → SendOutcome) (kvFail : Nat → Bool × Bool) :
    ∀ (uids : List Nat) (idx : Nat) (st : KvState),
      countPauses (notifyAllUsers send kvFail idx uids st).1 =
        countOkSends send idx uids.length := by
  intro uids
  induction uids with
  | nil => intro idx st; rfl
  | cons uid rest ih =>
    intro idx st
    cases hs : send idx with
    | ok =>
      rw [notifyAllUsers_cons_ok send kvFail idx uid rest st hs]
      rw [show ((FanEvent.attempt uid :: FanEvent.pause 50 ::
          (notifyAllUsers send kvFail (idx + 1) rest st).1,
          (notifyAllUsers send kvFail (idx + 1) rest st).2) :
          List FanEvent × KvState).1 =
        FanEvent.attempt uid :: FanEvent.pause 50 ::
          (notifyAllUsers send kvFail (idx + 1) rest st).1 from rfl]
      rw [countPauses_attempt, countPauses_pause, ih (idx + 1) st]
      simp [countOkSends, hs]
      omega
    | err code =>
      by_cases h403 : code = 403
      · subst h403
        rw [notifyAllUsers_cons_err403 send kvFail idx uid rest st hs]
        rw [show ((FanEvent.attempt uid :: FanEvent.removeAll uid ::
            (notifyAllUsers send kvFail (idx + 1) rest
              (removeFromAllLists (kvFail idx).1 (kvFail idx).2 uid st)).1,
            (notifyAllUsers send kvFail (idx + 1) rest
              (removeFromAllLists (kvFail idx).1 (kvFail idx).2 uid st)).2) :
            List FanEvent × KvState).1 =
          FanEvent.attempt uid :: FanEvent.removeAll uid ::
            (notifyAllUsers send kvFail (idx + 1) rest
              (removeFromAllLists (kvFail idx).1 (kvFail idx).2 uid st)).1 from rfl]
        rw [countPauses_attempt, countPauses_removeAll, ih (idx + 1) _]
        simp [countOkSends, hs]
      · rw [notifyAllUsers_cons_errOther send kvFail idx uid rest st code hs h403]
        rw [show ((FanEvent.attempt uid ::
            (notifyAllUsers send kvFail (idx + 1) rest st).1,
            (notifyAllUsers send kvFail (idx + 1) rest st).2) :
            List FanEvent × KvState).1 =
          FanEvent.attempt uid :: (notifyAllUsers send kvFail (idx + 1) rest st).1 from rfl]
        rw [countPauses_attempt, ih (idx + 1) st]
        simp [countOkSends, hs]

theorem notifyAllUsers_pauseSeparated_of_allOk (send : Nat → SendOutcome)
    (kvFail : Nat → Bool × Bool) :
    ∀ (uids : List Nat) (idx : Nat) (st : KvState),
      (∀ i, i < uids.length → send (idx + i) = .ok) →
      pauseSeparated (notifyAllUsers send kvFail idx uids st).1 = true := by
  intro uids
  induction uids with
  | nil => intro idx st _; rfl
  | cons uid rest ih =>
    intro idx st hall
    have hs : send idx = .ok := by simpa using hall 0 (by simp)
    rw [notifyAllUsers_cons_ok send kvFail idx uid rest st hs]
    show pauseSeparatedFrom true (FanEvent.attempt uid :: FanEvent.pause 50 ::
      (notifyAllUsers send kvFail (idx + 1) rest st).1) = true
    simp only [pauseSeparatedFrom, Bool.true_and]
    exact ih (idx + 1) st (fun i hi => by
      have h := hall (i + 1) (by simpa using Nat.succ_lt_succ hi)
      rwa [show idx + (i + 1) = idx + 1 + i by omega] at h)

/-- C3 counterexample: for the subscriber list `[1, 2]` where the first
send fails with a transient error (code 500) and the second succeeds,
the fan-out trace moves from the first recipient's send attempt
directly to the second recipient's send attempt with no pause between
them — so it is false that a pause follows every send attempt, success
or failure, before the next attempt. -/
theorem fanout_pause_every_attempt_counterexample :
    pauseSeparated
      (notifyAllUsers sendFirstFails kvOk 0 [1, 2] ⟨[1, 2], []⟩).1 = false := by
  decide

/-- C3 (amended): the inter-send pause happens only on the success
path — the number of pause events of a fan-out run equals the number of
successful sends, so a failed attempt contributes no pause — and when
every send of the run succeeds, every transition from one recipient's
attempt to the next does go through a 50 ms pause. -/
theorem fanout_pause_only_after_success (send : Nat → SendOutcome)
    (kvFail : Nat → Bool × Bool) (idx : Nat) (uids : List Nat) (st : KvState) :
    countPauses (notifyAllUsers send kvFail idx uids st).1 =
      countOkSends send idx uids.length ∧
    ((∀ i, i < uids.length → send (idx + i) = .ok) →
      pauseSeparated (notifyAllUsers send kvFail idx uids st).1 = true) :=
  ⟨notifyAllUsers_countPauses send kvFail uids idx st,
    fun h => notifyAllUsers_pauseSeparated_of_allOk send kvFail uids idx st h⟩

/-- Witness for the amended C3 at a concrete run where every send
succeeds: two pauses for two successes, and the trace is
pause-separated. -/
theorem fanout_pause_only_after_success_witness :
    countPauses (notifyAllUsers (fun _ => .ok) kvOk 0 [1, 2] ⟨[], []⟩).1 =
      countOkSends (fun _ => .ok) 0 2 ∧
    pauseSeparated (notifyAllUsers (fun _ => .ok) kvOk 0 [1, 2] ⟨[], []⟩).1 = true := by
  have h := fanout_pause_only_after_success (fun _ => .ok) kvOk 0 [1, 2] ⟨[], []⟩
  exact ⟨h.1, h.2 (fun i _ => rfl)⟩

/-- C4 counterexample: the webhook formatter's excerpt of 200 identical
characters is the 160-character hard cut, not the 157-plus-ellipsis
158-character result the claim states. -/
theorem excerpt_claim_counterexample :
    (excerptWebhook (List.replicate 200 'a')).length ≠ 158 ∧
    excerptWebhook (List.replicate 200 'a') ≠
      (collapseWs (List.replicate 200 'a')).take 157 ++ ['…'] := by
  decide

/-- C4 (amended): both formatters first collapse whitespace runs to
single spaces, and a normalized text of at most 160 characters is
returned unchanged by both; for longer texts the polling formatter
(`index.js`) returns exactly the first 157 characters plus one ellipsis
character (158 total), while the webhook formatter (`api/telegram.js`)
returns the first 160 characters with no ellipsis (160 total). -/
theorem excerpt_truncation_behaviour (t : List Char) :
    ((collapseWs t).length ≤ 160 →
      excerptPolling t = collapseWs t ∧ excerptWebhook t = collapseWs t) ∧
    ((collapseWs t).length > 160 →
      excerptPolling t = (collapseWs t).take 157 ++ ['…'] ∧
      (excerptPolling t).length = 158 ∧
      excerptWebhook t = (collapseWs t).take 160 ∧
      (excerptWebhook t).length = 160) := by
  constructor
  · intro h
    constructor
    · simp only [excerptPolling]
      rw [if_neg (by omega)]
    · simp only [excerptWebhook]
      exact List.take_of_length_le h
  · intro h
    have hp : excerptPolling t = (collapseWs t).take 157 ++ ['…'] := by
      simp only [excerptPolling]
      rw [if_pos h]
    refine ⟨hp, ?_, rfl, ?_⟩
    · rw [hp]
      simp only [List.length_append, List.length_take, List.length_cons,
        List.length_nil]
      omega
    · simp only [excerptWebhook, List.length_take]
      omega

/-- Witness for the amended C4: an input of 50 identical characters is
returned unchanged; an input of 200 identical characters gives the
157-plus-ellipsis excerpt (158 characters) from the polling formatter
and a 160-character excerpt from the webhook formatter. -/
theorem excerpt_truncation_behaviour_witness :
    excerptPolling (List.replicate 50 'a') = List.replicate 50 'a' ∧
    excerptPolling (List.replicate 200 'a') =
      (collapseWs (List.replicate 200 'a')).take 157 ++ ['…'] ∧
    (excerptPolling (List.replicate 200 'a')).length = 158 ∧
    (excerptWebhook (List.replicate 200 'a')).length = 160 := by
  have h50 := (excerpt_truncation_behaviour (List.replicate 50 'a')).1 (by decide)
  have h200 := (excerpt_truncation_behaviour (List.replicate 200 'a')).2 (by decide)
  exact ⟨h50.1.trans (by decide), h200.1, h200.2.1, h200.2.2.2⟩

/-- C5: at any invocation instant with the override flag unset, the
cron trigger skips with the no-class outcome when the GMT+5 weekday has
no schedule entry; skips with the wrong-time outcome when the weekday
has an entry but the GMT+5 time differs from the 18:25 target by more
than one minute in absolute value; and executes with exactly the
table's class name when the weekday has an entry and the time is within
one minute of the target. With the override flag set the time check is
bypassed: any instant on a configured weekday executes. -/
theorem classReminder_schedule_behaviour (t : Nat) :
    (CLASS_SCHEDULE_BY_GMT5_DAY (gmt5Day t) = none →
      classReminderOutcome false t = .skippedNoClass) ∧
    (∀ c, CLASS_SCHEDULE_BY_GMT5_DAY (gmt5Day t) = some c → minuteDiff t > 1 →
      classReminderOutcome false t = .skippedWrongTime) ∧
    (∀ c, CLASS_SCHEDULE_BY_GMT5_DAY (gmt5Day t) = some c → minuteDiff t ≤ 1 →
      classReminderOutcome false t = .executed c) ∧
    (∀ c, CLASS_SCHEDULE_BY_GMT5_DAY (gmt5Day t) = some c →
      classReminderOutcome true t = .executed c) := by
  refine ⟨?_, ?_, ?_, ?_⟩
  · intro h
    simp [classReminderOutcome, h]
  · intro c h hd
    simp [classReminderOutcome, h, hd]
  · intro c h hd
    have hled : ¬ (minuteDiff t > 1) := by omega
    simp [classReminderOutcome, h, hled]
  · intro c h
    simp [classReminderOutcome, h]

/-- Witness for C5 at three concrete instants (epoch milliseconds):
a Saturday midnight GMT+5 skips with no-class; a Monday noon GMT+5
skips with wrong-time; Monday 18:25 GMT+5 executes with the Monday
class; and Monday noon executes when forced. -/
theorem classReminder_schedule_behaviour_witness :
    classReminderOutcome false 154800000 = .skippedNoClass ∧
    classReminderOutcome false 370800000 = .skippedWrongTime ∧
    classReminderOutcome false 393900000 = .executed "Database Design Concepts" ∧
    classReminderOutcome true 370800000 = .executed "Database Design Concepts" := by
  refine ⟨(classReminder_schedule_behaviour 154800000).1 (by decide),
    (classReminder_schedule_behaviour 370800000).2.1 "Database Design Concepts"
      (by decide) (by decide),
    (classReminder_schedule_behaviour 393900000).2.2.1 "Database Design Concepts"
      (by decide) (by decide),
    (classReminder_schedule_behaviour 370800000).2.2.2 "Database Design Concepts"
      (by decide)⟩

/-- C6: the link resolver returns the public-handle permalink
`https://t.me/<handle>/<messageId>` whenever the chat carries a
non-empty username (regardless of its id, so this case takes priority);
otherwise, when the chat's numeric id rendered as a string starts with
`-100`, it returns `https://t.me/c/<id with the 4-character prefix
stripped>/<messageId>`; otherwise it returns null. -/
theorem buildLink_cases (chat : Option Chat) (messageId : Nat) :
    (∀ c u, chat = some c → c.username = some u → u ≠ "" →
      buildLink chat messageId =
        some ("https://t.me/" ++ u ++ "/" ++ toString messageId)) ∧
    (∀ c i, chat = some c → jsTruthyStr c.username = false → c.id = some i →
      strStartsWith (toString i) "-100" = true →
      buildLink chat messageId =
        some ("https://t.me/c/" ++ strDrop (toString i) 4 ++ "/" ++ toString messageId)) ∧
    (∀ c, chat = some c → jsTruthyStr c.username = false →
      (∀ i, c.id = some i → strStartsWith (toString i) "-100" = false) →
      buildLink chat messageId = none) ∧
    (chat = none → buildLink chat messageId = none) := by
  refine ⟨?_, ?_, ?_, ?_⟩
  · intro c u hc hu hne
    subst hc
    simp [buildLink, jsTruthyStr, hu, hne]
  · intro c i hc husr hid hstart
    subst hc
    have hi0 : i ≠ 0 := by
      intro h0
      subst h0
      exact absurd hstart (by decide)
    simp [buildLink, husr, stringOfChatId, hid, hi0, hstart]
  · intro c hc husr hns
    subst hc
    cases hid : c.id with
    | none => simp [buildLink, husr, stringOfChatId, hid, strStartsWith, startsWithChars]
    | some i =>
      by_cases hi0 : i = 0
      · subst hi0
        simp [buildLink, husr, stringOfChatId, hid, strStartsWith, startsWithChars]
      · simp [buildLink, husr, stringOfChatId, hid, hi0, hns i hid]
  · intro hc
    subst hc
    rfl

/-- Witness for C6 at concrete chats: a public chat, a private
supergroup with id `-100123456`, a basic private chat with id `-123`,
and a null chat. -/
theorem buildLink_cases_witness :
    buildLink (some ⟨some "mygroup", some (-1001234)⟩) 42 =
      some "https://t.me/mygroup/42" ∧
    buildLink (some ⟨none, some (-100123456)⟩) 5 = some "https://t.me/c/123456/5" ∧
    buildLink (some ⟨none, some (-123)⟩) 7 = none ∧
    buildLink none 9 = none := by
  refine ⟨?_, ?_, ?_, (buildLink_cases none 9).2.2.2 rfl⟩
  · exact ((buildLink_cases (some ⟨some "mygroup", some (-1001234)⟩) 42).1
      ⟨some "mygroup", some (-1001234)⟩ "mygroup" rfl rfl (by decide)).trans (by decide)
  · exact ((buildLink_cases (some ⟨none, some (-100123456)⟩) 5).2.1
      ⟨none, some (-100123456)⟩ (-100123456) rfl rfl rfl (by decide)).trans (by decide)
  · exact (buildLink_cases (some ⟨none, some (-123)⟩) 7).2.2.1
      ⟨none, some (-123)⟩ rfl rfl (fun i hi => by
        cases hi
        decide)

/-- C7: the link resolver is a pure total function of its inputs: for
every chat value (including a null chat and a chat with both the
username and id fields missing) and every message identifier it
evaluates to a value — a URL string or null — and the degenerate inputs
evaluate to null. -/
theorem buildLink_total (chat : Option Chat) (messageId : Nat) :
    (buildLink chat messageId = none ∨ ∃ s, buildLink chat messageId = some s) ∧
    buildLink none messageId = none ∧
    buildLink (some ⟨none, none⟩) messageId = none := by
  refine ⟨?_, rfl, rfl⟩
  cases h : buildLink chat messageId with
  | none => exact Or.inl rfl
  | some s => exact Or.inr ⟨s, rfl⟩

theorem kwAt_iff (l : List Char) :
    kwAt l = true ↔ ∃ occ post, l = occ ++ post ∧ occ.map Char.toLower = kwChars ∧
      (post = [] ∨ ∃ c p, post = c :: p ∧ isWordChar c = false) := by
  constructor
  · intro h
    simp only [kwAt, Bool.and_eq_true, decide_eq_true_eq] at h
    refine ⟨l.take 10, l.drop 10, (List.take_append_drop 10 l).symm, h.1, ?_⟩
    cases hd : l.drop 10 with
    | nil => exact Or.inl rfl
    | cons c p =>
      right
      refine ⟨c, p, rfl, ?_⟩
      have h2 := h.2
      rw [hd] at h2
      simpa using h2
  · rintro ⟨occ, post, heq, hmap, hpost⟩
    have hocc : occ.length = 10 := by
      have hl := congrArg List.length hmap
      simpa using hl
    subst heq
    simp only [kwAt, Bool.and_eq_true, decide_eq_true_eq]
    refine ⟨?_, ?_⟩
    · rw [List.take_left' hocc]
      exact hmap
    · rw [List.drop_left' hocc]
      rcases hpost with h | ⟨c, p, hp, hnw⟩
      · subst h; rfl
      · subst hp; simp [hnw]

theorem kwScan_iff (l : List Char) :
    kwScan l = true ↔
      ∃ pre c rest, l = pre ++ c :: rest ∧ isWordChar c = false ∧ kwAt rest = true := by
  induction l with
  | nil =>
    constructor
    · intro h
      exact absurd h (by simp [kwScan])
    · rintro ⟨pre, c, rest, h, -, -⟩
      exact absurd h (by simp)
  | cons a l' ih =>
    simp only [kwScan, Bool.or_eq_true, Bool.and_eq_true, Bool.not_eq_true']
    constructor
    · rintro (⟨hnw, hat⟩ | hscan)
      · exact ⟨[], a, l', rfl, hnw, hat⟩
      · obtain ⟨pre, c, rest, heq, hnw, hat⟩ := ih.mp hscan
        exact ⟨a :: pre, c, rest, by rw [heq]; rfl, hnw, hat⟩
    · rintro ⟨pre, c, rest, heq, hnw, hat⟩
      cases pre with
      | nil =>
        simp only [List.nil_append, List.cons.injEq] at heq
        left
        rw [heq.1, heq.2]
        exact ⟨hnw, hat⟩
      | cons p ps =>
        simp only [List.cons_append, List.cons.injEq] at heq
        right
        exact ih.mpr ⟨ps, c, rest, heq.2, hnw, hat⟩

/-- C8: the keyword detector (`KEYWORD.test` with
`/(^|\W)attendance(\W|$)/i`) returns true exactly when the text
contains the trigger word, compared case-insensitively, bounded on each
side by a non-word character or the string edge; and the empty input —
in particular a message carrying neither a text nor a caption field —
never matches. -/
theorem keyword_detector_correct :
    (∀ l : List Char, kwTest l = true ↔ containsBoundedKeyword l) ∧
    kwTest [] = false ∧
    extractText (some ⟨none, none⟩) = [] ∧
    extractText none = [] ∧
    kwTest (extractText (some ⟨none, none⟩)) = false := by
  refine ⟨?_, rfl, rfl, rfl, rfl⟩
  intro l
  unfold kwTest containsBoundedKeyword
  rw [Bool.or_eq_true, kwAt_iff, kwScan_iff]
  constructor
  · rintro (⟨occ, post, heq, hmap, hpost⟩ | ⟨pre, c, rest, heq, hnw, hat⟩)
    · exact ⟨[], occ, post, heq, hmap, Or.inl rfl, hpost⟩
    · obtain ⟨occ, post, hre, hmap, hpost⟩ := (kwAt_iff rest).mp hat
      refine ⟨pre ++ [c], occ, post, ?_, hmap, Or.inr ⟨pre, c, rfl, hnw⟩, hpost⟩
      rw [heq, hre]
      simp
  · rintro ⟨pre, occ, post, heq, hmap, hpre, hpost⟩
    rcases hpre with hpre | ⟨p, c, hpe, hnw⟩
    · subst hpre
      left
      exact ⟨occ, post, by simpa using heq, hmap, hpost⟩
    · right
      refine ⟨p, c, occ ++ post, ?_, hnw,
        (kwAt_iff (occ ++ post)).mpr ⟨occ, post, rfl, hmap, hpost⟩⟩
      rw [heq, hpe]
      simp

/-- C9: every store-adapter operation absorbs a store-access failure
instead of propagating it — each adapter returns a plain value for
every input (by construction the `Except` error of the underlying KV
call is caught inside the adapter), and on failure the result is the
benign default for that call: `setSub` leaves the list unchanged
(no-op), `isSub` answers false, `listSubs` answers the empty list; and
`removeFromAllLists` issues the remove on each known list even when the
remove on the other list fails. -/
theorem store_adapter_absorbs_failures :
    (∀ enabled uid st, setSub true enabled uid st = st) ∧
    (∀ uid st, isSub true uid st = false) ∧
    (∀ st, listSubs true st = []) ∧
    (∀ uid st, (removeFromAllLists true false uid st).att = st.att ∧
      (removeFromAllLists true false uid st).cls = st.cls.filter (fun x => x ≠ uid) ∧
      uid ∉ (removeFromAllLists true false uid st).cls) ∧
    (∀ uid st, (removeFromAllLists false true uid st).cls = st.cls ∧
      (removeFromAllLists false true uid st).att = st.att.filter (fun x => x ≠ uid) ∧
      uid ∉ (removeFromAllLists false true uid st).att) := by
  refine ⟨?_, fun _ _ => rfl, fun _ => rfl, ?_, ?_⟩
  · intro enabled uid st
    cases enabled <;> rfl
  · intro uid st
    refine ⟨rfl, rfl, ?_⟩
    simp [removeFromAllLists, setSub, kvSrem, List.mem_filter]
  · intro uid st
    refine ⟨rfl, rfl, ?_⟩
    simp [removeFromAllLists, setSub, kvSrem, List.mem_filter]

theorem mem_setSub_add_iff (u uid : Nat) (l : List Nat) :
    u ∈ setSub false true uid l ↔ u ∈ l ∨ u = uid := by
  rw [setSub_add_ok]
  by_cases hm : uid ∈ l
  · rw [if_pos hm]
    exact ⟨Or.inl, fun h => h.elim id (fun he => he ▸ hm)⟩
  · rw [if_neg hm]
    simp [List.mem_append]

theorem applyAction_preserves (a : SubAction) (uid : Nat) (st : KvState)
    (h : ClassImpliesAtt st) : ClassImpliesAtt (applyAction false false a uid st) := by
  cases a with
  | presetAttendance =>
    intro u hu
    simp only [applyAction, setSub_remove_ok, List.mem_filter] at hu
    exact (mem_setSub_add_iff u uid st.att).mpr (Or.inl (h u hu.1))
  | presetBoth =>
    intro u hu
    rcases (mem_setSub_add_iff u uid st.cls).mp hu with hc | he
    · exact (mem_setSub_add_iff u uid st.att).mpr (Or.inl (h u hc))
    · exact (mem_setSub_add_iff u uid st.att).mpr (Or.inr he)
  | presetNone =>
    intro u hu
    simp only [applyAction, removeFromAllLists_ok, List.mem_filter] at hu ⊢
    exact ⟨h u hu.1, hu.2⟩
  | stopCmd =>
    intro u hu
    simp only [applyAction, removeFromAllLists_ok, List.mem_filter] at hu ⊢
    exact ⟨h u hu.1, hu.2⟩
  | blocked403 =>
    intro u hu
    simp only [applyAction, removeFromAllLists_ok, List.mem_filter] at hu ⊢
    exact ⟨h u hu.1, hu.2⟩

theorem applyActions_preserves (kvFail : Nat → Bool × Bool)
    (hkv : ∀ i, kvFail i = (false, false)) :
    ∀ (acts : List (SubAction × Nat)) (idx : Nat) (st : KvState),
      ClassImpliesAtt st → ClassImpliesAtt (applyActions kvFail idx acts st) := by
  intro acts
  induction acts with
  | nil => intro idx st h; exact h
  | cons au rest ih =>
    intro idx st h
    obtain ⟨a, uid⟩ := au
    show ClassImpliesAtt (applyActions kvFail (idx + 1) rest
      (applyAction (kvFail idx).1 (kvFail idx).2 a uid st))
    rw [hkv idx]
    exact ih (idx + 1) _ (applyAction_preserves a uid st h)

/-- C10: for every sequence of subscription-state mutations reachable
through the command handler (the `preset:attendance`, `preset:both`,
`preset:none` actions and the `/stop` command) and through
403-triggered removal, with the underlying store calls succeeding, the
invariant "membership in the class-reminders list implies membership in
the attendance list" is preserved from any state satisfying it — so the
state "class reminders on, attendance off" is unreachable through these
operations. -/
theorem subscription_invariant_preserved (kvFail : Nat → Bool × Bool)
    (acts : List (SubAction × Nat)) (idx : Nat) (st : KvState)
    (hkv : ∀ i, kvFail i = (false, false)) (h : ClassImpliesAtt st) :
    ClassImpliesAtt (applyActions kvFail idx acts st) ∧
    ¬ ∃ u, u ∈ (applyActions kvFail idx acts st).cls ∧
      u ∉ (applyActions kvFail idx acts st).att := by
  have hp := applyActions_preserves kvFail hkv acts idx st h
  exact ⟨hp, fun ⟨u, hc, ha⟩ => ha (hp u hc)⟩

/-- Witness for C10: starting from the empty store, the sequence
"user 1 picks both lists, user 2 picks attendance only, user 1 is
removed after a 403" keeps the invariant. -/
theorem subscription_invariant_preserved_witness :
    ClassImpliesAtt (applyActions kvOk 0
      [(SubAction.presetBoth, 1), (SubAction.presetAttendance, 2),
        (SubAction.blocked403, 1)] ⟨[], []⟩) := by
  exact (subscription_invariant_preserved kvOk
    [(SubAction.presetBoth, 1), (SubAction.presetAttendance, 2),
      (SubAction.blocked403, 1)] 0 ⟨[], []⟩ (fun _ => rfl)
    (fun u h => absurd h (List.not_mem_nil u))).1

end AttendanceBot
